import Mathlib

/-!
Shallow embedding of the haptic-toolbox control library (Rust sources
`tdpa.rs`, `deadband.rs`, `wave.rs`, `iss.rs`) and proofs about it.

The Rust code is generic over a scalar field `N : RealField` and a static
dimension `D`; vectors are nalgebra `VectorN<N, D>`.  We embed vectors as
`Fin d → K` over a `LinearOrderedField K` where only field and order
operations are used (TDPA, ISS), and over `ℝ` where the Euclidean norm or a
square root appears (DeadbandDetector, WAVE).  nalgebra's `dot` is the sum
of coordinatewise products and its `norm` is the square root of the dot of
a vector with itself.  Rust `assert!` failures (panics) are modelled as
`Option` results: `none` means the call failed and produced no successor
state.
-/

/-- nalgebra `Vector::dot`: sum of coordinatewise products. -/
def dotV {K : Type} [CommRing K] {d : ℕ} (x y : Fin d → K) : K :=
  ∑ i, x i * y i

/-- nalgebra `Vector::norm`: Euclidean norm, the square root of `dot x x`. -/
noncomputable def normV {d : ℕ} (x : Fin d → ℝ) : ℝ :=
  Real.sqrt (dotV x x)

/-! ## TDPA (`src/tdpa.rs`)

State: `alpha`, `energy`, `prev_vel`; `Default` starts all at zero. -/

structure TDPA (K : Type) (d : ℕ) where
  alpha : K
  energy : K
  prev_vel : Fin d → K

/-- `TDPA::default()`: alpha = 0, energy = 0, prev_vel = zero vector. -/
def TDPA.default (K : Type) [LinearOrderedField K] (d : ℕ) : TDPA K d :=
  ⟨0, 0, fun _ => 0⟩

/-- `TDPA::calculate_force(&mut self, vel, force)`.  Returns the updated
state together with the returned force.  Mirrors the Rust body:
the energy increment, the `prev_vel` store, the `alpha` branch on the
updated energy, and the final branch on `alpha == 0`. -/
def TDPA.calculate_force {K : Type} [LinearOrderedField K] {d : ℕ}
    (s : TDPA K d) (vel force : Fin d → K) : TDPA K d × (Fin d → K) :=
  let e := dotV force vel + s.alpha * dotV s.prev_vel s.prev_vel
  let energy := s.energy + e
  let alpha := if energy < 0 then -energy / dotV vel vel else 0
  (⟨alpha, energy, vel⟩,
    if alpha = 0 then force else force + fun i => vel i * alpha)

/-! ## ISS (`src/iss.rs`) -/

structure ISS (K : Type) (d : ℕ) where
  tau : K
  mu_max : K
  prev_force : Fin d → K

/-- `ISS::new(tau, mu_max)`: asserts `mu_max > 0` (panic modelled as
`none`); `prev_force` starts at the zero vector.  `tau` is not checked. -/
def ISS.new {K : Type} [LinearOrderedField K] {d : ℕ} (tau mu_max : K) :
    Option (ISS K d) :=
  if mu_max ≤ 0 then none else some ⟨tau, mu_max, fun _ => 0⟩

/-- `ISS::calculate_force(force, dt)`: returns
`force + (force - prev_force) * tau / dt` and stores `prev_force = force`. -/
def ISS.calculate_force {K : Type} [LinearOrderedField K] {d : ℕ}
    (s : ISS K d) (force : Fin d → K) (dt : K) : (Fin d → K) × ISS K d :=
  (force + fun i => (force i - s.prev_force i) * s.tau / dt,
    ⟨s.tau, s.mu_max, force⟩)

/-- `ISS::set_tau(tau)`: asserts `tau >= 0`; rejection modelled as `none`. -/
def ISS.set_tau {K : Type} [LinearOrderedField K] {d : ℕ}
    (s : ISS K d) (tau : K) : Option (ISS K d) :=
  if tau < 0 then none else some ⟨tau, s.mu_max, s.prev_force⟩

/-- `ISS::set_mu_max(mu_max)`: asserts `mu_max > 0`; rejection is `none`. -/
def ISS.set_mu_max {K : Type} [LinearOrderedField K] {d : ℕ}
    (s : ISS K d) (mu_max : K) : Option (ISS K d) :=
  if mu_max ≤ 0 then none else some ⟨s.tau, mu_max, s.prev_force⟩

/-! ## DeadbandDetector (`src/deadband.rs`)

Fields in the Rust declaration order: `prev_vals`, `threshold`, `deadband`.
The norm requires a square root, so this component is embedded over `ℝ`. -/

structure DeadbandDetector (d : ℕ) where
  prev_vals : Fin d → ℝ
  threshold : ℝ
  deadband : ℝ

/-- Private `set_deadband`: `deadband = threshold * prev_vals.norm()`. -/
noncomputable def DeadbandDetector.set_deadband {d : ℕ}
    (s : DeadbandDetector d) : DeadbandDetector d :=
  ⟨s.prev_vals, s.threshold, s.threshold * normV s.prev_vals⟩

/-- `DeadbandDetector::new(threshold, initial_vals)`: builds the record with
`deadband = 0` and immediately calls `set_deadband`. -/
noncomputable def DeadbandDetector.new {d : ℕ}
    (threshold : ℝ) (initial_vals : Fin d → ℝ) : DeadbandDetector d :=
  DeadbandDetector.set_deadband ⟨initial_vals, threshold, 0⟩

/-- `DeadbandDetector::is_in_deadband(&mut self, vals)`: if
`(prev_vals - vals).norm() > deadband` it adopts `vals`, recomputes the
deadband and returns `false`; otherwise it returns `true` unchanged.
Returned as (answer, updated state). -/
noncomputable def DeadbandDetector.is_in_deadband {d : ℕ}
    (s : DeadbandDetector d) (vals : Fin d → ℝ) : Bool × DeadbandDetector d :=
  let diff := normV (s.prev_vals - vals)
  if diff > s.deadband then
    (false, DeadbandDetector.set_deadband ⟨vals, s.threshold, s.deadband⟩)
  else
    (true, s)

/-- `DeadbandDetector::set_threshold(threshold)`: asserts `threshold >= 0`
(panic modelled as `none`); does not touch the stored `deadband`. -/
noncomputable def DeadbandDetector.set_threshold {d : ℕ}
    (s : DeadbandDetector d) (threshold : ℝ) : Option (DeadbandDetector d) :=
  if threshold < 0 then none else some ⟨s.prev_vals, threshold, s.deadband⟩

/-- `DeadbandDetector::set_prev_vals(vals)`: stores `vals`; does not touch
the stored `deadband`. -/
def DeadbandDetector.set_prev_vals {d : ℕ}
    (s : DeadbandDetector d) (vals : Fin d → ℝ) : DeadbandDetector d :=
  ⟨vals, s.threshold, s.deadband⟩

/-- States reachable from `new threshold initial_vals` by calls of
`is_in_deadband` only. -/
inductive DeadbandDetector.Reachable {d : ℕ} (threshold : ℝ)
    (initial_vals : Fin d → ℝ) : DeadbandDetector d → Prop where
  | base : DeadbandDetector.Reachable threshold initial_vals
      (DeadbandDetector.new threshold initial_vals)
  | step (s : DeadbandDetector d) (v : Fin d → ℝ) :
      DeadbandDetector.Reachable threshold initial_vals s →
      DeadbandDetector.Reachable threshold initial_vals
        (s.is_in_deadband v).2

/-! ## WAVE (`src/wave.rs`)

Only the impedance `b` is stored (the dimension is phantom).  All the
transforms are pure; they need `sqrt`, so they live over `ℝ`. -/

structure WAVE where
  b : ℝ

/-- `WAVE::new(b)`: stores `b` verbatim, with no validation. -/
def WAVE.new (b : ℝ) : WAVE := ⟨b⟩

/-- `WAVE::calculate_u_m(force_m, vel_m) = (force_m + vel_m * b) / sqrt(b * 2)`. -/
noncomputable def WAVE.calculate_u_m {d : ℕ} (w : WAVE)
    (force vel : Fin d → ℝ) : Fin d → ℝ :=
  fun i => (force i + vel i * w.b) / Real.sqrt (w.b * 2)

/-- `WAVE::calculate_u_s(force_s, vel_s) = (force_s - vel_s * b) / sqrt(b * 2)`. -/
noncomputable def WAVE.calculate_u_s {d : ℕ} (w : WAVE)
    (force vel : Fin d → ℝ) : Fin d → ℝ :=
  fun i => (force i - vel i * w.b) / Real.sqrt (w.b * 2)

/-- `WAVE::calculate_v_m` is an alias of `calculate_u_s`. -/
noncomputable def WAVE.calculate_v_m {d : ℕ} (w : WAVE)
    (force vel : Fin d → ℝ) : Fin d → ℝ :=
  w.calculate_u_s force vel

/-- `WAVE::calculate_v_s` is an alias of `calculate_u_m`. -/
noncomputable def WAVE.calculate_v_s {d : ℕ} (w : WAVE)
    (force vel : Fin d → ℝ) : Fin d → ℝ :=
  w.calculate_u_m force vel

/-- `WAVE::calculate_force_m(u_m, v_m) = (u_m + v_m) * sqrt(b / 2)`. -/
noncomputable def WAVE.calculate_force_m {d : ℕ} (w : WAVE)
    (u v : Fin d → ℝ) : Fin d → ℝ :=
  fun i => (u i + v i) * Real.sqrt (w.b / 2)

/-- `WAVE::calculate_force_s(u_s, v_s) = (u_s + v_s) * sqrt(b / 2)`. -/
noncomputable def WAVE.calculate_force_s {d : ℕ} (w : WAVE)
    (u v : Fin d → ℝ) : Fin d → ℝ :=
  fun i => (u i + v i) * Real.sqrt (w.b / 2)

/-- `WAVE::calculate_vel_m(u_m, vel_m) = (u_m - vel_m) / (b * 2)`. -/
noncomputable def WAVE.calculate_vel_m {d : ℕ} (w : WAVE)
    (u vel : Fin d → ℝ) : Fin d → ℝ :=
  fun i => (u i - vel i) / (w.b * 2)

/-- `WAVE::calculate_vel_s(u_s, vel_s) = (u_s + vel_s) / (b * 2)`. -/
noncomputable def WAVE.calculate_vel_s {d : ℕ} (w : WAVE)
    (u vel : Fin d → ℝ) : Fin d → ℝ :=
  fun i => (u i + vel i) / (w.b * 2)

/-! ## Concrete one-dimensional sample vectors and states, used to evaluate
the theorems below on explicit inputs. -/

def qZero : Fin 1 → ℚ := fun _ => 0

def qOne : Fin 1 → ℚ := fun _ => 1

def qNegOne : Fin 1 → ℚ := fun _ => -1

def qTwo : Fin 1 → ℚ := fun _ => 2

def vZeroR : Fin 1 → ℝ := fun _ => 0

def vOneR : Fin 1 → ℝ := fun _ => 1

noncomputable def db0 : DeadbandDetector 1 := ⟨vOneR, 1 / 10, 1 / 10⟩

def iss0 : ISS ℚ 1 := ⟨1, 1, fun _ => 0⟩

/-! ## Theorems -/

theorem dotV_nonneg {K : Type} [LinearOrderedField K] {d : ℕ} (x : Fin d → K) :
    0 ≤ dotV x x :=
  Finset.sum_nonneg fun i _ => mul_self_nonneg (x i)

/-- C6: `TDPA::calculate_force` updates, in order: the energy accumulator by
`dot(force, vel) + alpha_prev * dot(prev_vel, prev_vel)`, the stored
`prev_vel` to `vel`, the damping coefficient `alpha` to
`-energy / dot(vel, vel)` exactly when the updated energy is negative and to
`0` otherwise, and returns `force` unchanged when `alpha = 0` and
`force + vel * alpha` otherwise — for every prior state and input with
`dot(vel, vel) ≠ 0` whenever the updated energy is negative. -/
theorem tdpa_calculate_force_spec {K : Type} [LinearOrderedField K] {d : ℕ}
    (s : TDPA K d) (vel force : Fin d → K)
    (h : s.energy + (dotV force vel + s.alpha * dotV s.prev_vel s.prev_vel) < 0 →
      dotV vel vel ≠ 0) :
    (s.calculate_force vel force).1.energy =
      s.energy + (dotV force vel + s.alpha * dotV s.prev_vel s.prev_vel) ∧
    (s.calculate_force vel force).1.prev_vel = vel ∧
    (s.calculate_force vel force).1.alpha =
      (if s.energy + (dotV force vel + s.alpha * dotV s.prev_vel s.prev_vel) < 0 then
        -(s.energy + (dotV force vel + s.alpha * dotV s.prev_vel s.prev_vel)) / dotV vel vel
      else 0) ∧
    (s.calculate_force vel force).2 =
      (if s.energy + (dotV force vel + s.alpha * dotV s.prev_vel s.prev_vel) < 0 then
        force + fun i => vel i *
          (-(s.energy + (dotV force vel + s.alpha * dotV s.prev_vel s.prev_vel)) / dotV vel vel)
      else force) := by
  refine ⟨rfl, rfl, rfl, ?_⟩
  by_cases hlt :
      s.energy + (dotV force vel + s.alpha * dotV s.prev_vel s.prev_vel) < 0
  · have hv := h hlt
    have hdpos : 0 < dotV vel vel := lt_of_le_of_ne (dotV_nonneg vel) (Ne.symm hv)
    have hαpos : 0 <
        -(s.energy + (dotV force vel + s.alpha * dotV s.prev_vel s.prev_vel)) /
          dotV vel vel :=
      div_pos (neg_pos.mpr hlt) hdpos
    simp only [TDPA.calculate_force, if_pos hlt]
    rw [if_neg (ne_of_gt hαpos)]
  · simp [TDPA.calculate_force, if_neg hlt]

/-- Witness for C6: from the default TDPA state, the sample
`vel = (1), force = (-1)` has power `-1`, so the updated energy is `-1`,
`prev_vel` becomes `(1)`, `alpha` becomes `1`, and the returned force is the
corrected `(-1) + (1) * 1 = (0)`. -/
theorem tdpa_calculate_force_spec_witness :
    ((TDPA.default ℚ 1).calculate_force qOne qNegOne).1.energy = -1 ∧
    ((TDPA.default ℚ 1).calculate_force qOne qNegOne).1.prev_vel = qOne ∧
    ((TDPA.default ℚ 1).calculate_force qOne qNegOne).1.alpha = 1 ∧
    ((TDPA.default ℚ 1).calculate_force qOne qNegOne).2 = fun _ => 0 := by
  have hd : dotV qOne qOne ≠ (0 : ℚ) := by
    norm_num [dotV, qOne, Fin.sum_univ_one]
  have h := tdpa_calculate_force_spec (TDPA.default ℚ 1) qOne qNegOne
    (fun _ => hd)
  obtain ⟨h1, h2, h3, h4⟩ := h
  have hE : (TDPA.default ℚ 1).energy + (dotV qNegOne qOne +
      (TDPA.default ℚ 1).alpha *
        dotV (TDPA.default ℚ 1).prev_vel (TDPA.default ℚ 1).prev_vel) = -1 := by
    norm_num [TDPA.default, dotV, qNegOne, qOne, Fin.sum_univ_one]
  refine ⟨?_, h2, ?_, ?_⟩
  · rw [h1, hE]
  · rw [h3, hE]
    norm_num [dotV, qOne, Fin.sum_univ_one]
  · rw [h4, hE]
    rw [if_pos (by norm_num : (-1 : ℚ) < 0)]
    funext i
    show qNegOne i + qOne i * (-(-1) / dotV qOne qOne) = 0
    norm_num [dotV, qOne, qNegOne, Fin.sum_univ_one]

/-- C1 (counterexample): feeding the sample `(vel, force) = ((1), (-1))`
twice to a default TDPA leaves the stored energy at `-1 < 0` after both
calls: the call following a negative reading does not drive the energy back
to `≥ 0`. -/
theorem tdpa_recovery_counterexample :
    ((TDPA.default ℚ 1).calculate_force qOne qNegOne).1.energy < 0 ∧
    (((TDPA.default ℚ 1).calculate_force qOne qNegOne).1.calculate_force
        qOne qNegOne).1.energy < 0 := by
  norm_num [TDPA.default, TDPA.calculate_force, dotV, qOne, qNegOne,
    Fin.sum_univ_one]

/-- C1 (amended): after a `TDPA::calculate_force` call that leaves the
stored energy negative (with nonzero velocity at that call), the immediately
following call's updated energy equals `dot(force₂, vel₂)` exactly — the
previous deficit is cancelled — hence it is `≥ 0` whenever the next sample's
power `dot(force₂, vel₂)` is nonnegative, but not unconditionally. -/
theorem tdpa_energy_recovery {K : Type} [LinearOrderedField K] {d : ℕ}
    (s : TDPA K d) (v₁ f₁ v₂ f₂ : Fin d → K)
    (hneg : ((s.calculate_force v₁ f₁).1).energy < 0)
    (hv : dotV v₁ v₁ ≠ 0) :
    (((s.calculate_force v₁ f₁).1).calculate_force v₂ f₂).1.energy =
      dotV f₂ v₂ ∧
    (0 ≤ dotV f₂ v₂ →
      0 ≤ (((s.calculate_force v₁ f₁).1).calculate_force v₂ f₂).1.energy) := by
  have key : (((s.calculate_force v₁ f₁).1).calculate_force v₂ f₂).1.energy =
      ((s.calculate_force v₁ f₁).1).energy + (dotV f₂ v₂ +
        ((s.calculate_force v₁ f₁).1).alpha * dotV v₁ v₁) := rfl
  have halpha : ((s.calculate_force v₁ f₁).1).alpha =
      -((s.calculate_force v₁ f₁).1).energy / dotV v₁ v₁ := by
    have hif : ((s.calculate_force v₁ f₁).1).alpha =
        if ((s.calculate_force v₁ f₁).1).energy < 0 then
          -((s.calculate_force v₁ f₁).1).energy / dotV v₁ v₁
        else 0 := rfl
    rw [hif, if_pos hneg]
  have main : (((s.calculate_force v₁ f₁).1).calculate_force v₂ f₂).1.energy =
      dotV f₂ v₂ := by
    rw [key, halpha, div_mul_cancel₀ _ hv]
    ring
  exact ⟨main, fun hp => by rw [main]; exact hp⟩

/-- Witness for C1's amended theorem: default state, first sample
`((1), (-1))` leaves energy `-1 < 0`; the following sample `((1), (2))`
makes the energy exactly `dot((2), (1)) = 2`. -/
theorem tdpa_energy_recovery_witness :
    ((TDPA.default ℚ 1).calculate_force qOne qNegOne).1.energy < 0 ∧
    (((TDPA.default ℚ 1).calculate_force qOne qNegOne).1.calculate_force
        qOne qTwo).1.energy = dotV qTwo qOne := by
  have hneg : ((TDPA.default ℚ 1).calculate_force qOne qNegOne).1.energy < 0 := by
    norm_num [TDPA.default, TDPA.calculate_force, dotV, qOne, qNegOne,
      Fin.sum_univ_one]
  refine ⟨hneg, ?_⟩
  exact (tdpa_energy_recovery (TDPA.default ℚ 1) qOne qNegOne qOne qTwo hneg
    (by norm_num [dotV, qOne, Fin.sum_univ_one])).1

/-- C7: `ISS::calculate_force(force, dt)` returns
`force + (force - prev_force) * tau / dt`, stores `prev_force = force`, and
an immediately following call with the same `force` returns `force`
exactly (the derivative term vanishes for constant input). -/
theorem iss_calculate_force_spec {K : Type} [LinearOrderedField K] {d : ℕ}
    (s : ISS K d) (force : Fin d → K) (dt dt₂ : K)
    (hdt : dt ≠ 0) (hdt₂ : dt₂ ≠ 0) :
    (s.calculate_force force dt).1 =
      (force + fun i => (force i - s.prev_force i) * s.tau / dt) ∧
    (s.calculate_force force dt).2.prev_force = force ∧
    ((s.calculate_force force dt).2.calculate_force force dt₂).1 = force := by
  refine ⟨rfl, rfl, ?_⟩
  funext i
  show force i + (force i - force i) * s.tau / dt₂ = force i
  simp

/-- Witness for C7: with `tau = 1`, `prev_force = (0)`, `dt = 1`, the force
`(1)` produces `(2) = (1) + ((1) - (0)) * 1 / 1`; a second call with the
same force `(1)` returns `(1)`. -/
theorem iss_calculate_force_spec_witness :
    (iss0.calculate_force qOne 1).1 = (fun _ => 2) ∧
    ((iss0.calculate_force qOne 1).2.calculate_force qOne 1).1 = qOne := by
  have h := iss_calculate_force_spec iss0 qOne 1 1 (by norm_num) (by norm_num)
  refine ⟨?_, h.2.2⟩
  rw [h.1]
  funext i
  show (1 : ℚ) + (1 - 0) * 1 / 1 = 2
  norm_num

/-- C8: every rejecting setter call — `DeadbandDetector::set_threshold` with
a negative threshold, `ISS::set_tau` with negative `tau`,
`ISS::set_mu_max` with non-positive `mu_max` — surfaces an explicit failure
(`none`, the model of the Rust `assert!` panic) and produces no successor
state, so the caller's prior state is untouched. -/
theorem rejecting_setters_no_effect {K : Type} [LinearOrderedField K] {d e : ℕ}
    (s : DeadbandDetector e) (t : ISS K d) (θ : ℝ) (tau mu_max : K)
    (hθ : θ < 0) (htau : tau < 0) (hmu : mu_max ≤ 0) :
    s.set_threshold θ = none ∧ t.set_tau tau = none ∧ t.set_mu_max mu_max = none := by
  refine ⟨?_, ?_, ?_⟩
  · exact if_pos hθ
  · exact if_pos htau
  · exact if_pos hmu

/-- Witness for C8: a concrete detector rejects threshold `-1`; a concrete
ISS rejects `tau = -1` and `mu_max = 0`. -/
theorem rejecting_setters_no_effect_witness :
    db0.set_threshold (-1) = none ∧ iss0.set_tau (-1) = none ∧
    iss0.set_mu_max 0 = none :=
  rejecting_setters_no_effect db0 iss0 (-1) (-1) 0 (by norm_num) (by norm_num)
    (by norm_num)

/-- C10 (implicit): `ISS::new` validates only `mu_max`: with `mu_max > 0`
it succeeds for any `tau`, including negative `tau`, storing that `tau`
verbatim (so the `tau()` accessor returns it); with `mu_max ≤ 0` it fails;
and `ISS::set_tau` rejects every negative `tau`, so a negative `tau` is
reachable only through the constructor. -/
theorem iss_new_validates_only_mu_max {K : Type} [LinearOrderedField K] {d : ℕ}
    (tau mu_max : K) (htau : tau < 0) (hmu : 0 < mu_max) :
    ((ISS.new tau mu_max : Option (ISS K d)) = some ⟨tau, mu_max, fun _ => 0⟩) ∧
    (∀ m : K, m ≤ 0 → (ISS.new tau m : Option (ISS K d)) = none) ∧
    (∀ s : ISS K d, s.set_tau tau = none) := by
  refine ⟨?_, ?_, ?_⟩
  · exact if_neg (not_le.mpr hmu)
  · intro m hm
    exact if_pos hm
  · intro s
    exact if_pos htau

/-- Witness for C10: `ISS::new(-1, 1)` succeeds and stores `tau = -1`;
`ISS::new(-1, 0)` fails; `set_tau(-1)` on a valid state fails. -/
theorem iss_new_validates_only_mu_max_witness :
    ((ISS.new (-1 : ℚ) 1 : Option (ISS ℚ 1)) = some ⟨-1, 1, fun _ => 0⟩) ∧
    ((ISS.new (-1 : ℚ) 0 : Option (ISS ℚ 1)) = none) ∧
    (iss0.set_tau (-1) = none) := by
  have h := @iss_new_validates_only_mu_max ℚ _ 1 (-1) 1 (by norm_num) (by norm_num)
  exact ⟨h.1, h.2.1 0 (by norm_num), h.2.2 iss0⟩

theorem normV_vOneR : normV vOneR = 1 := by
  unfold normV dotV vOneR
  rw [Fin.sum_univ_one]
  norm_num [Real.sqrt_one]

/-- C5 (counterexample): starting from `new(0.1, (1))` (whose deadband is
`0.1 * 1 = 0.1`), the accepted call `set_threshold(0.2)` produces a state
whose stored `deadband` is still `0.1`, violating
`deadband == threshold * norm(prev_vals) = 0.2`: `set_threshold` does not
recompute the deadband. -/
theorem deadband_invariant_counterexample :
    (DeadbandDetector.new (1 / 10) vOneR).set_threshold (2 / 10) =
      some ⟨vOneR, 2 / 10, 1 / 10⟩ ∧
    ¬((⟨vOneR, 2 / 10, 1 / 10⟩ : DeadbandDetector 1).deadband =
      (⟨vOneR, 2 / 10, 1 / 10⟩ : DeadbandDetector 1).threshold *
        normV (⟨vOneR, 2 / 10, 1 / 10⟩ : DeadbandDetector 1).prev_vals) := by
  constructor
  · rw [show (DeadbandDetector.new (1 / 10) vOneR).set_threshold (2 / 10) =
        some ⟨vOneR, 2 / 10, 1 / 10 * normV vOneR⟩ from if_neg (by norm_num)]
    rw [normV_vOneR]
    norm_num
  · show ¬((1 / 10 : ℝ) = 2 / 10 * normV vOneR)
    rw [normV_vOneR]
    norm_num

/-- C5 (amended): the field equation `deadband = threshold * norm(prev_vals)`
holds after `new` and is preserved by every `is_in_deadband` call, but
`set_threshold` and `set_prev_vals` do not recompute `deadband`, so the
equation can be broken by them. -/
theorem deadband_invariant_new_and_detect {d : ℕ} (θ : ℝ)
    (init vals : Fin d → ℝ) (s : DeadbandDetector d)
    (h : s.deadband = s.threshold * normV s.prev_vals) :
    (DeadbandDetector.new θ init).deadband =
      (DeadbandDetector.new θ init).threshold *
        normV (DeadbandDetector.new θ init).prev_vals ∧
    (s.is_in_deadband vals).2.deadband =
      (s.is_in_deadband vals).2.threshold *
        normV (s.is_in_deadband vals).2.prev_vals := by
  constructor
  · rfl
  · simp only [DeadbandDetector.is_in_deadband]
    by_cases hgt : normV (s.prev_vals - vals) > s.deadband
    · rw [if_pos hgt]
      rfl
    · rw [if_neg hgt]
      exact h

/-- Witness for C5's amended theorem: `new(0.1, (0))` satisfies the field
equation, and a detector state satisfying it still satisfies it after an
`is_in_deadband` call. -/
theorem deadband_invariant_new_and_detect_witness :
    (DeadbandDetector.new (1 / 10) vZeroR).deadband =
      (DeadbandDetector.new (1 / 10) vZeroR).threshold *
        normV (DeadbandDetector.new (1 / 10) vZeroR).prev_vals ∧
    (db0.is_in_deadband vOneR).2.deadband =
      (db0.is_in_deadband vOneR).2.threshold *
        normV (db0.is_in_deadband vOneR).2.prev_vals :=
  deadband_invariant_new_and_detect (1 / 10) vZeroR vOneR db0
    (by show (1 / 10 : ℝ) = 1 / 10 * normV vOneR; rw [normV_vOneR]; norm_num)

theorem deadband_reachable_inv {d : ℕ} {θ : ℝ} {init : Fin d → ℝ}
    {s : DeadbandDetector d} (h : DeadbandDetector.Reachable θ init s) :
    s.threshold = θ ∧ s.deadband = θ * normV s.prev_vals := by
  induction h with
  | base => exact ⟨rfl, rfl⟩
  | step s v _ ih =>
    simp only [DeadbandDetector.is_in_deadband]
    by_cases hgt : normV (s.prev_vals - v) > s.deadband
    · rw [if_pos hgt]
      refine ⟨ih.1, ?_⟩
      show s.threshold * normV v = θ * normV v
      rw [ih.1]
    · rw [if_neg hgt]
      exact ih

/-- C2: on every detector reachable from `new(θ, init)` by `is_in_deadband`
calls only, with `θ ≥ 0`, `is_in_deadband(V)` returns `true` (sample
suppressed) iff `‖prev_vals − V‖ ≤ θ * ‖prev_vals‖` (boundary suppressed);
and when it returns `false` it adopts `V` as the new `prev_vals` and
recomputes `deadband = θ * ‖V‖`. -/
theorem deadband_is_in_deadband_spec {d : ℕ} (θ : ℝ) (init V : Fin d → ℝ)
    (s : DeadbandDetector d) (hreach : DeadbandDetector.Reachable θ init s)
    (hθ : 0 ≤ θ) :
    ((s.is_in_deadband V).1 = true ↔
      normV (s.prev_vals - V) ≤ θ * normV s.prev_vals) ∧
    ((s.is_in_deadband V).1 = false →
      (s.is_in_deadband V).2.prev_vals = V ∧
      (s.is_in_deadband V).2.deadband = θ * normV V) := by
  obtain ⟨ht, hd⟩ := deadband_reachable_inv hreach
  simp only [DeadbandDetector.is_in_deadband]
  by_cases hgt : normV (s.prev_vals - V) > s.deadband
  · rw [if_pos hgt]
    refine ⟨?_, ?_⟩
    · have hnle : ¬ normV (s.prev_vals - V) ≤ θ * normV s.prev_vals :=
        not_le.mpr (hd ▸ hgt)
      simp [hnle]
    · intro _
      refine ⟨rfl, ?_⟩
      show s.threshold * normV V = θ * normV V
      rw [ht]
  · rw [if_neg hgt]
    have hle : normV (s.prev_vals - V) ≤ θ * normV s.prev_vals := by
      rw [← hd]
      exact not_lt.mp hgt
    refine ⟨by simp [hle], ?_⟩
    intro hfalse
    simp at hfalse

/-- Witness for C2: the freshly constructed detector `new(0.1, (0))` has a
zero deadband radius, so the sample `(1)` is reported outside the deadband,
matching the predicate `‖(0) − (1)‖ ≤ 0.1 * ‖(0)‖` being false. -/
theorem deadband_is_in_deadband_spec_witness :
    (0 : ℝ) ≤ 1 / 10 ∧
    ((((DeadbandDetector.new (1 / 10) vZeroR).is_in_deadband vOneR).1 = true ↔
      normV ((DeadbandDetector.new (1 / 10) vZeroR).prev_vals - vOneR) ≤
        (1 / 10) * normV (DeadbandDetector.new (1 / 10) vZeroR).prev_vals) ∧
    (((DeadbandDetector.new (1 / 10) vZeroR).is_in_deadband vOneR).1 = false →
      ((DeadbandDetector.new (1 / 10) vZeroR).is_in_deadband
          vOneR).2.prev_vals = vOneR ∧
      ((DeadbandDetector.new (1 / 10) vZeroR).is_in_deadband
          vOneR).2.deadband = (1 / 10) * normV vOneR)) :=
  ⟨by norm_num,
    deadband_is_in_deadband_spec (1 / 10) vZeroR vOneR
      (DeadbandDetector.new (1 / 10) vZeroR) DeadbandDetector.Reachable.base
      (by norm_num)⟩

/-- C3: WAVE force round-trip — for impedance `b > 0`, applying
`calculate_force_m` to the wave pair `(calculate_u_m(f, v),
calculate_v_m(f, v))` recovers `f` exactly. -/
theorem wave_force_roundtrip {d : ℕ} (w : WAVE) (hb : 0 < w.b)
    (f v : Fin d → ℝ) :
    w.calculate_force_m (w.calculate_u_m f v) (w.calculate_v_m f v) = f := by
  have h2 : (0 : ℝ) < w.b * 2 := by linarith
  have hs : Real.sqrt (w.b * 2) ≠ 0 := ne_of_gt (Real.sqrt_pos.mpr h2)
  have h4 : Real.sqrt 4 = 2 := by
    rw [show (4 : ℝ) = 2 ^ 2 by norm_num,
      Real.sqrt_sq (by norm_num : (0 : ℝ) ≤ 2)]
  have hhalf : Real.sqrt (w.b / 2) = Real.sqrt (w.b * 2) / 2 := by
    rw [show w.b / 2 = w.b * 2 / 4 by ring, Real.sqrt_div (le_of_lt h2) 4, h4]
  funext i
  show ((f i + v i * w.b) / Real.sqrt (w.b * 2) +
      (f i - v i * w.b) / Real.sqrt (w.b * 2)) * Real.sqrt (w.b / 2) = f i
  rw [hhalf]
  field_simp

/-- Witness for C3: with `b = 2`, the pair `(f, v) = ((1), (0))` is
recovered exactly by the inverse force transform. -/
theorem wave_force_roundtrip_witness :
    (0 : ℝ) < (WAVE.new 2).b ∧
    (WAVE.new 2).calculate_force_m ((WAVE.new 2).calculate_u_m vOneR vZeroR)
      ((WAVE.new 2).calculate_v_m vOneR vZeroR) = vOneR :=
  ⟨by norm_num [WAVE.new],
    wave_force_roundtrip (WAVE.new 2) (by norm_num [WAVE.new]) vOneR vZeroR⟩

/-- C4 (counterexample): with `b = 2` and `(f, v) = ((0), (1))`,
`calculate_vel_m` applied to the wave pair returns `(1/2)`, not `v = (1)`:
the velocity recovery divides by `2b` rather than `sqrt(2b)` and does not
invert the forward transform. -/
theorem wave_vel_roundtrip_counterexample :
    (WAVE.new 2).calculate_vel_m ((WAVE.new 2).calculate_u_m vZeroR vOneR)
      ((WAVE.new 2).calculate_v_m vZeroR vOneR) ≠ vOneR := by
  intro hcontra
  have h0 := congrFun hcontra 0
  have h4 : Real.sqrt ((2 : ℝ) * 2) = 2 := by
    rw [show (2 : ℝ) * 2 = 2 ^ 2 by norm_num,
      Real.sqrt_sq (by norm_num : (0 : ℝ) ≤ 2)]
  rw [show ((WAVE.new 2).calculate_vel_m
        ((WAVE.new 2).calculate_u_m vZeroR vOneR)
        ((WAVE.new 2).calculate_v_m vZeroR vOneR)) 0 =
      (((0 : ℝ) + 1 * 2) / Real.sqrt (2 * 2) -
        ((0 : ℝ) - 1 * 2) / Real.sqrt (2 * 2)) / (2 * 2) from rfl] at h0
  rw [h4] at h0
  norm_num [vOneR] at h0

/-- C4 (amended): for `b > 0`, the velocity recovery applied to the wave
pair is off by a factor: the master-side recovery returns `v / sqrt(2b)`
(so it equals `v` only when `2b = 1`), and the slave-side recovery applied
to the slave wave pair returns `f / (b * sqrt(2b))`, not `v`. -/
theorem wave_vel_scaled_roundtrip {d : ℕ} (w : WAVE) (hb : 0 < w.b)
    (f v : Fin d → ℝ) :
    w.calculate_vel_m (w.calculate_u_m f v) (w.calculate_v_m f v) =
      (fun i => v i / Real.sqrt (w.b * 2)) ∧
    w.calculate_vel_s (w.calculate_u_s f v) (w.calculate_v_s f v) =
      (fun i => f i / (w.b * Real.sqrt (w.b * 2))) := by
  have h2 : (0 : ℝ) < w.b * 2 := by linarith
  have hs : Real.sqrt (w.b * 2) ≠ 0 := ne_of_gt (Real.sqrt_pos.mpr h2)
  constructor
  · funext i
    show ((f i + v i * w.b) / Real.sqrt (w.b * 2) -
        (f i - v i * w.b) / Real.sqrt (w.b * 2)) / (w.b * 2) =
      v i / Real.sqrt (w.b * 2)
    field_simp
    ring
  · funext i
    show ((f i - v i * w.b) / Real.sqrt (w.b * 2) +
        (f i + v i * w.b) / Real.sqrt (w.b * 2)) / (w.b * 2) =
      f i / (w.b * Real.sqrt (w.b * 2))
    field_simp
    ring

/-- Witness for C4's amended theorem: with `b = 2`, `(f, v) = ((0), (1))`,
the master recovery returns `(1 / sqrt 4)` and the slave recovery returns
`(0)`. -/
theorem wave_vel_scaled_roundtrip_witness :
    (0 : ℝ) < (WAVE.new 2).b ∧
    (WAVE.new 2).calculate_vel_m ((WAVE.new 2).calculate_u_m vZeroR vOneR)
        ((WAVE.new 2).calculate_v_m vZeroR vOneR) =
      (fun i => vOneR i / Real.sqrt ((WAVE.new 2).b * 2)) ∧
    (WAVE.new 2).calculate_vel_s ((WAVE.new 2).calculate_u_s vZeroR vOneR)
        ((WAVE.new 2).calculate_v_s vZeroR vOneR) =
      (fun i => vZeroR i / ((WAVE.new 2).b * Real.sqrt ((WAVE.new 2).b * 2))) := by
  have h := wave_vel_scaled_roundtrip (WAVE.new 2) (by norm_num [WAVE.new])
    vZeroR vOneR
  exact ⟨by norm_num [WAVE.new], h.1, h.2⟩

/-- C9 (counterexample): `WAVE::new(-1)` constructs an instance whose
impedance is `-1`, refuting the claim that every constructed WAVE instance
has strictly positive `b`: the constructor performs no validation. -/
theorem wave_new_counterexample :
    (WAVE.new (-1)).b = -1 ∧ ¬(0 < (WAVE.new (-1)).b) := by
  refine ⟨rfl, ?_⟩
  norm_num [WAVE.new]

/-- C9 (amended): `WAVE::new(b)` never fails and stores `b` verbatim for
every `b`, including `b ≤ 0`; the stored impedance is whatever the caller
passed (no validation; the struct exposes no mutator of `b`). -/
theorem wave_new_unvalidated (b : ℝ) : (WAVE.new b).b = b := rfl
